import Mathlib

/-!
Verification of the RSS aggregation script `scripts/generate_rss.py`.

The Python source is shallowly embedded: every pure function of the script is
translated to an executable Lean definition of the same name.  Network I/O and
the two external parsing libraries (BeautifulSoup, feedparser) are treated as
collaborators: their results appear as explicit inputs of the embedded
functions (e.g. `parse_from_feed` receives the fetch outcome and the parsed
entry list instead of performing I/O).  Machine strings are modelled as Lean
`String`s and Python codepoint indexing as `List Char` operations; publication
instants are modelled as seconds since 0001-01-01T00:00:00 UTC (the value of
`datetime.min`, the sentinel the script uses), so `datetime.min` is `0`.
-/

namespace GenRss

/-! ## Basic character and string helpers (Python `str` operations) -/

/-- ASCII lowercase, plus the Cyrillic range used by the month-name table
(Python `str.lower` also lowers Cyrillic letters). -/
def pyLowerChar (c : Char) : Char :=
  if 'A' ≤ c ∧ c ≤ 'Z' then Char.ofNat (c.toNat + 32)
  else if 'А' ≤ c ∧ c ≤ 'Я' then Char.ofNat (c.toNat + 32)
  else if c = 'Ё' then 'ё'
  else c

def lowerStr (s : String) : String := String.mk (s.data.map pyLowerChar)

/-- Python `\s` for the ASCII range (the script's inputs are ASCII/Cyrillic;
the exotic Unicode space characters are not modelled). -/
def isPySpace (c : Char) : Bool :=
  c = ' ' ∨ c = '\t' ∨ c = '\n' ∨ c = '\r' ∨ c = '\x0b' ∨ c = '\x0c'

/-- Python `str.strip()` (no argument: strip whitespace at both ends). -/
def stripWsStr (s : String) : String :=
  String.mk (((s.data.dropWhile isPySpace).reverse.dropWhile isPySpace).reverse)

/-- Python `str.lstrip(set)`: drops every leading character that is a member
of the given character SET (this is exactly the semantics the source relies
on with `host.lstrip("www.")`). -/
def pyLstrip (set : String) (s : String) : String :=
  String.mk (s.data.dropWhile (fun c => c ∈ set.data))

/-- Python `str.rstrip(set)`. -/
def pyRstrip (set : String) (s : String) : String :=
  String.mk ((s.data.reverse.dropWhile (fun c => c ∈ set.data)).reverse)

/-- Python `str.rstrip()` with no argument (whitespace). -/
def rstripWs (s : String) : String :=
  String.mk ((s.data.reverse.dropWhile isPySpace).reverse)

def listStartsWith : List Char → List Char → Bool
  | _, [] => true
  | [], _ :: _ => false
  | a :: as, b :: bs => a = b && listStartsWith as bs

/-- Python `needle in hay` (substring containment). -/
def containsSub : List Char → List Char → Bool
  | [], n => n.isEmpty
  | h :: t, n => listStartsWith (h :: t) n || containsSub t n

def containsSubStr (hay needle : String) : Bool := containsSub hay.data needle.data

/-- Python `hay.find(needle)` restricted to the found case (`none` = `-1`). -/
def findSubIdx : List Char → List Char → Option Nat
  | [], n => if n.isEmpty then some 0 else none
  | h :: t, n =>
    if listStartsWith (h :: t) n then some 0
    else (findSubIdx t n).map (· + 1)

def strStartsWith (s pre : String) : Bool := listStartsWith s.data pre.data

def strEndsWith (s suf : String) : Bool := List.isSuffixOf suf.data s.data

/-- Python `s[:n]` over codepoints. -/
def takeChars (n : Nat) (s : String) : String := String.mk (s.data.take n)

def lenChars (s : String) : Nat := s.data.length

/-! ## URL splitting and joining (`urllib.parse.urlparse` / `urljoin`)

Only the behaviour the script exercises is modelled: `http(s)`-style URLs,
relative references without `.`/`..` segments (none of the script's fixed
suffix lists contain dot segments). -/

structure UrlParts where
  scheme : String
  netloc : String
  path : String
  query : String
  frag : String
deriving DecidableEq, Repr

def isSchemeChar (c : Char) : Bool :=
  c.isAlpha || c.isDigit || c = '+' || c = '-' || c = '.'

def validScheme : List Char → Bool
  | [] => false
  | c :: cs => c.isAlpha && cs.all isSchemeChar

/-- Split a leading `scheme:` as `urlsplit` does (the scheme is lowercased). -/
def splitScheme (l : List Char) : String × List Char :=
  match findSubIdx l [':'] with
  | none => ("", l)
  | some i =>
    let sch := l.take i
    if i > 0 ∧ validScheme sch then
      (String.mk (sch.map pyLowerChar), l.drop (i + 1))
    else ("", l)

def splitAtChar (c : Char) (l : List Char) : List Char × List Char :=
  match findSubIdx l [c] with
  | none => (l, [])
  | some i => (l.take i, l.drop (i + 1))

def urlsplit (s : String) : UrlParts :=
  let (scheme, rest) := splitScheme s.data
  let (netloc, rest) :=
    if listStartsWith rest ['/', '/'] then
      let body := rest.drop 2
      let nl := body.takeWhile (fun c => c ≠ '/' ∧ c ≠ '?' ∧ c ≠ '#')
      (nl, body.drop nl.length)
    else ([], rest)
  let (rest, frag) := splitAtChar '#' rest
  let (path, query) := splitAtChar '?' rest
  ⟨scheme, String.mk netloc, String.mk path, String.mk query, String.mk frag⟩

def urlunsplit (p : UrlParts) : String :=
  (if p.scheme ≠ "" then p.scheme ++ ":" else "")
    ++ (if p.netloc ≠ "" ∨ strStartsWith p.path "//" then "//" ++ p.netloc else "")
    ++ p.path
    ++ (if p.query ≠ "" then "?" ++ p.query else "")
    ++ (if p.frag ≠ "" then "#" ++ p.frag else "")

/-- Base path's directory: everything up to and including the last `/`. -/
def dirOf (p : String) : String :=
  String.mk ((p.data.reverse.dropWhile (fun c => c ≠ '/')).reverse)

/-- `urllib.parse.urljoin` for the http family, without dot-segment
resolution (never exercised by the script's inputs in the claims). -/
def urljoin (base url : String) : String :=
  if base = "" then url
  else if url = "" then base
  else
    let B := urlsplit base
    let R := urlsplit url
    let scheme := if R.scheme = "" then B.scheme else R.scheme
    if scheme ≠ B.scheme then url
    else if R.netloc ≠ "" then urlunsplit ⟨scheme, R.netloc, R.path, R.query, R.frag⟩
    else if R.path = "" then
      urlunsplit ⟨scheme, B.netloc, B.path,
        (if R.query = "" then B.query else R.query), R.frag⟩
    else
      let path :=
        if strStartsWith R.path "/" then R.path
        else if B.path = "" then "/" ++ R.path
        else dirOf B.path ++ R.path
      urlunsplit ⟨scheme, B.netloc, path, R.query, R.frag⟩

/-! ## Site identity (`norm_host_from_url`, `is_same_site`) -/

/-- Models `host.encode("idna").decode("ascii")` with the surrounding
`try/except: pass`.  For all-ASCII hosts the idna codec either returns the
input unchanged or raises (and the `except` keeps the host unchanged), so the
whole step is the identity; punycode encoding of non-ASCII hosts is not
modelled (no claim depends on it). -/
def idnaStep (host : String) : String := host

/-- `norm_host_from_url` from the source:
`host = (urlparse(url).netloc or "").lower().strip()`;
`host = host.lstrip("www.")` (NOTE: Python character-set semantics);
then the idna round-trip. -/
def norm_host_from_url (url : String) : String :=
  let host := stripWsStr (lowerStr (urlsplit url).netloc)
  let host := pyLstrip "www." host
  idnaStep host

/-- `is_same_site` from the source. -/
def is_same_site (url home_url : String) : Bool :=
  let a := norm_host_from_url url
  let e := norm_host_from_url home_url
  if a = "" ∨ e = "" then false
  else a = e || strEndsWith a ("." ++ e)

/-! ## Proleptic Gregorian calendar (the fragment of `datetime` the script uses)

Instants are seconds since 0001-01-01T00:00:00 UTC, i.e. since
`datetime.min`; the script's sort sentinel `datetime.min.replace(tzinfo=utc)`
is therefore `0`. -/

def isLeap (y : Nat) : Bool := y % 4 = 0 && (y % 100 ≠ 0 || y % 400 = 0)

def daysInMonth (y m : Nat) : Nat :=
  if m = 2 then (if isLeap y then 29 else 28)
  else if m = 4 ∨ m = 6 ∨ m = 9 ∨ m = 11 then 30
  else 31

def daysBeforeYear (y : Nat) : Nat :=
  let p := y - 1
  365 * p + p / 4 - p / 100 + p / 400

def daysBeforeMonth (y m : Nat) : Nat :=
  (List.range (m - 1)).foldl (fun acc i => acc + daysInMonth y (i + 1)) 0

/-- Days since 0001-01-01 of a civil date. -/
def daysFromCivil (y m d : Nat) : Nat :=
  daysBeforeYear y + daysBeforeMonth y m + (d - 1)

/-- Seconds since 0001-01-01T00:00:00 of a civil date-time. -/
def dateSec (y mo d h mi s : Nat) : Nat :=
  daysFromCivil y mo d * 86400 + h * 3600 + mi * 60 + s

/-- Civil date from a day count since 0001-01-01 (Gregorian era algorithm). -/
def civilFromDays (d : Nat) : Nat × Nat × Nat :=
  let z := d + 306
  let era := z / 146097
  let doe := z % 146097
  let yoe := (doe - doe / 1460 + doe / 36524 - doe / 146096) / 365
  let y0 := yoe + era * 400
  let doy := doe - (365 * yoe + yoe / 4 - yoe / 100)
  let mp := (5 * doy + 2) / 153
  let dd := doy - (153 * mp + 2) / 5 + 1
  let mm := if mp < 10 then mp + 3 else mp - 9
  (if mm ≤ 2 then y0 + 1 else y0, mm, dd)

/-! ## The resilient fetcher (`fetch_url`)

Each of the three transport strategies (requests, curl_cffi, cloudscraper)
either raises a transport-level exception or yields a response; those
outcomes are the inputs of the embedded function. -/

structure PyResp where
  status : Nat
  ctype : String
  body : String
  finalUrl : String
deriving DecidableEq, Repr

inductive FetchAttempt where
  | exn : FetchAttempt
  | resp : PyResp → FetchAttempt
deriving DecidableEq, Repr

/-- `fetch_url` from the source: requests → curl_cffi → cloudscraper.
Strategy 1 and 2 responses are returned unless the status is 403; the
strategy 3 response is returned unconditionally; if strategy 3 raises, the
saved strategy 1 response (a 403, when it exists) is returned; only
otherwise does the call raise `RuntimeError("All fetch methods failed")`. -/
def fetch_url (a1 a2 a3 : FetchAttempt) : Except String PyResp :=
  match a1 with
  | .resp r =>
    if r.status ≠ 403 then .ok r
    else
      match a2 with
      | .resp r2 => if r2.status ≠ 403 then .ok r2 else
          match a3 with
          | .resp r3 => .ok r3
          | .exn => .ok r
      | .exn =>
          match a3 with
          | .resp r3 => .ok r3
          | .exn => .ok r
  | .exn =>
      match a2 with
      | .resp r2 => if r2.status ≠ 403 then .ok r2 else
          match a3 with
          | .resp r3 => .ok r3
          | .exn => .error "All fetch methods failed"
      | .exn =>
          match a3 with
          | .resp r3 => .ok r3
          | .exn => .error "All fetch methods failed"

/-! ## The feed extractor (`parse_from_feed`) -/

def PER_ORG : Nat := 3
def TOTAL_LIMIT : Nat := 200

structure Item where
  title : String
  link : String
  description : String
  dt : Option Nat
deriving DecidableEq, Repr

/-- One feedparser entry, as the script reads it: `e.get("link")`,
`e.get("title")`, the markup-stripped `e.get("summary") or
e.get("description")` (BeautifulSoup's `get_text` is a collaborator, so the
stripped text is the input), and `published_parsed or updated_parsed`
truncated to six fields. -/
structure FeedEntry where
  link : String
  title : String
  summaryText : String
  published : Option (Nat × Nat × Nat × Nat × Nat × Nat)
deriving DecidableEq, Repr

/-- `datetime(*tt[:6], tzinfo=timezone.utc)` with the `try/except` that maps
a constructor error to `None`. -/
def ttToSec : Nat × Nat × Nat × Nat × Nat × Nat → Option Nat
  | (y, mo, d, h, mi, s) =>
    if 1 ≤ y ∧ y ≤ 9999 ∧ 1 ≤ mo ∧ mo ≤ 12 ∧ 1 ≤ d ∧ d ≤ daysInMonth y mo
        ∧ h ≤ 23 ∧ mi ≤ 59 ∧ s ≤ 59 then
      some (dateSec y mo d h mi s)
    else none

/-- `link = (e.get("link") or "").strip(); if link: link = urljoin(base, link)`. -/
def entryLink (base : String) (e : FeedEntry) : String :=
  if stripWsStr e.link = "" then stripWsStr e.link else urljoin base (stripWsStr e.link)

/-- `raw_title`, after the summary-derived fallback. -/
def entryRawTitle (e : FeedEntry) : String :=
  if stripWsStr e.title = "" ∧ e.summaryText ≠ "" then
    rstripWs (takeChars 80 e.summaryText) ++ (if 80 < lenChars e.summaryText then "…" else "")
  else stripWsStr e.title

/-- `pub_dt`: `published_parsed or updated_parsed` through the guarded
`datetime` constructor. -/
def entryPubDt (e : FeedEntry) : Option Nat :=
  match e.published with
  | some tt => ttToSec tt
  | none => none

/-- The per-entry body of the loop in `parse_from_feed`. -/
def entryItem (base org_name home_url : String) (e : FeedEntry) : Option Item :=
  if entryLink base e = "" ∨ is_same_site (entryLink base e) home_url = false then none
  else some
    { title := if entryRawTitle e ≠ "" then "[" ++ org_name ++ "] " ++ entryRawTitle e
               else "[" ++ org_name ++ "] " ++ "Новость"
      link := entryLink base e
      description := if e.summaryText ≠ "" then
          takeChars 600 e.summaryText ++ (if 600 < lenChars e.summaryText then "…" else "")
        else "Новость"
      dt := entryPubDt e }

/-- The entry loop of `parse_from_feed`: skip rejected entries, stop as soon
as `PER_ORG` items have been collected. -/
def entriesLoop (base org_name home_url : String) :
    List FeedEntry → List Item → List Item
  | [], acc => acc
  | e :: rest, acc =>
    match entryItem base org_name home_url e with
    | none => entriesLoop base org_name home_url rest acc
    | some it =>
      let acc' := acc ++ [it]
      if PER_ORG ≤ acc'.length then acc'
      else entriesLoop base org_name home_url rest acc'

/-- `(d.feed or {}).get("link") or feed_url`: the feed's own declared base
link when present and non-empty, else the feed URL. -/
def feedBase (feedLink : Option String) (feed_url : String) : String :=
  match feedLink with
  | some l => if l = "" then feed_url else l
  | none => feed_url

/-- `parse_from_feed` from the source.  `fetched` is the outcome of
`fetch_url(feed_url)` (`none` models a raised exception, which the
surrounding `try/except` turns into an empty result); `feedLink` models
`d.feed.get("link")` and `entries` models `d.entries` as produced by the
feedparser collaborator on the fetched bytes.  The guard inspects
`raw[:400].lower()` — a substring containment test, not a prefix test; the
400-byte window is modelled as a 400-codepoint window, which coincides for
the ASCII markers being searched in ASCII heads. -/
def parse_from_feed (fetched : Option PyResp) (feedLink : Option String)
    (entries : List FeedEntry) (feed_url org_name home_url : String) : List Item :=
  match fetched with
  | none => []
  | some r =>
    if 400 ≤ r.status then []
    else
      let head := lowerStr (takeChars 400 r.body)
      if containsSubStr head "<html" ∨ containsSubStr head "<!doctype html" then []
      else
        entriesLoop (feedBase feedLink feed_url) org_name home_url entries []

/-! ## The date resolver (`parse_date_from_text`)

The two regular expressions of the source,
DATE_RE_1 (day digits, whitespace, a Cyrillic month name, whitespace, a
4-digit year, a comma, optional whitespace, hour:minute) and
DATE_RE_2 (day digits, a separator among dot, dash and slash, month digits,
a separator, a 4-digit year, whitespace, hour:minute),
are embedded as backtracking matchers with `re.search` semantics (leftmost
match; a greedy 1-or-2-digit group tries two digits before one).  All other
quantified classes are pairwise disjoint from their successors, so maximal
munch is exact for them. -/

def isCyr (c : Char) : Bool :=
  ('А' ≤ c ∧ c ≤ 'Я') ∨ ('а' ≤ c ∧ c ≤ 'я') ∨ c = 'ё' ∨ c = 'Ё'

def digitVal (c : Char) : Nat := c.toNat - 48

/-- Exactly `n` digits. -/
def rdDigitsN : Nat → List Char → Option (Nat × List Char)
  | 0, l => some (0, l)
  | _ + 1, [] => none
  | n + 1, c :: l =>
    if c.isDigit then
      (rdDigitsN n l).map (fun (v, rest) => (digitVal c * 10 ^ n + v, rest))
    else none

def expectChar (c : Char) : List Char → Option (List Char)
  | [] => none
  | x :: l => if x = c then some l else none

/-- `\s+` (the following token class never overlaps whitespace). -/
def wsPlus : List Char → Option (List Char)
  | [] => none
  | c :: l => if isPySpace c then some (l.dropWhile isPySpace) else none

def wsStar (l : List Char) : List Char := l.dropWhile isPySpace

/-- `[А-Яа-яёЁ]+` (the following token is whitespace, disjoint). -/
def cyrPlus : List Char → Option (List Char × List Char)
  | [] => none
  | c :: l =>
    if isCyr c then
      let name := l.takeWhile isCyr
      some (c :: name, l.drop name.length)
    else none

/-- Tail `(\d{1,2}):(\d{2})` with backtracking on the hour. -/
def hourMinute (l : List Char) : Option (Nat × Nat × List Char) :=
  (do
    let (h, l) ← rdDigitsN 2 l
    let l ← expectChar ':' l
    let (mi, l) ← rdDigitsN 2 l
    pure (h, mi, l)) <|>
  (do
    let (h, l) ← rdDigitsN 1 l
    let l ← expectChar ':' l
    let (mi, l) ← rdDigitsN 2 l
    pure (h, mi, l))

/-- DATE_RE_1 after the day group. -/
def re1Core (day : Nat) (l : List Char) : Option (Nat × String × Nat × Nat × Nat) := do
  let l ← wsPlus l
  let (name, l) ← cyrPlus l
  let l ← wsPlus l
  let (year, l) ← rdDigitsN 4 l
  let l ← expectChar ',' l
  let l := wsStar l
  let (h, mi, _) ← hourMinute l
  pure (day, String.mk name, year, h, mi)

/-- DATE_RE_1 anchored at the current position. -/
def re1At (l : List Char) : Option (Nat × String × Nat × Nat × Nat) :=
  (do let (d, l') ← rdDigitsN 2 l; re1Core d l') <|>
  (do let (d, l') ← rdDigitsN 1 l; re1Core d l')

def searchRE1 : List Char → Option (Nat × String × Nat × Nat × Nat)
  | [] => none
  | c :: t => re1At (c :: t) <|> searchRE1 t

def isSep (c : Char) : Bool := c = '.' ∨ c = '-' ∨ c = '/'

def expectSep : List Char → Option (List Char)
  | [] => none
  | x :: l => if isSep x then some l else none

/-- DATE_RE_2 after day and month groups. -/
def re2Core (day mon : Nat) (l : List Char) : Option (Nat × Nat × Nat × Nat × Nat) := do
  let l ← expectSep l
  let (year, l) ← rdDigitsN 4 l
  let l ← wsPlus l
  let (h, mi, _) ← hourMinute l
  pure (day, mon, year, h, mi)

def re2Mon (day : Nat) (l : List Char) : Option (Nat × Nat × Nat × Nat × Nat) :=
  (do let (mo, l') ← rdDigitsN 2 l; re2Core day mo l') <|>
  (do let (mo, l') ← rdDigitsN 1 l; re2Core day mo l')

def re2At (l : List Char) : Option (Nat × Nat × Nat × Nat × Nat) :=
  (do let (d, l') ← rdDigitsN 2 l; let l'' ← expectSep l'; re2Mon d l'') <|>
  (do let (d, l') ← rdDigitsN 1 l; let l'' ← expectSep l'; re2Mon d l'')

def searchRE2 : List Char → Option (Nat × Nat × Nat × Nat × Nat)
  | [] => none
  | c :: t => re2At (c :: t) <|> searchRE2 t

def RU_MONTHS : List (String × Nat) :=
  [("января", 1), ("февраля", 2), ("марта", 3), ("апреля", 4), ("мая", 5),
   ("июня", 6), ("июля", 7), ("августа", 8), ("сентября", 9), ("октября", 10),
   ("ноября", 11), ("декабря", 12)]

/-- An aware `datetime` value of the script: civil fields plus a fixed-offset
timezone in minutes (`LOCAL_TZ` is UTC+8, i.e. 480). -/
structure PyDatetime where
  year : Nat
  month : Nat
  day : Nat
  hour : Nat
  minute : Nat
  second : Nat
  offMin : Int
deriving DecidableEq, Repr

def LOCAL_TZ_MIN : Int := 480

/-- The `datetime(year, mon, day, hour, minute, tzinfo=LOCAL_TZ)` constructor:
`none` is a raised `ValueError`. -/
def mkDatetimeLocal (y mo d h mi : Nat) : Option PyDatetime :=
  if 1 ≤ y ∧ y ≤ 9999 ∧ 1 ≤ mo ∧ mo ≤ 12 ∧ 1 ≤ d ∧ d ≤ daysInMonth y mo
      ∧ h ≤ 23 ∧ mi ≤ 59 then
    some ⟨y, mo, d, h, mi, 0, LOCAL_TZ_MIN⟩
  else none

/-- The DATE_RE_2 branch of `parse_date_from_text` (with its month-range
check; a failed `datetime` constructor propagates as `.error`). -/
def re2Branch (l : List Char) : Except Unit (Option PyDatetime) :=
  match searchRE2 l with
  | some (d, mo, y, h, mi) =>
    if 1 ≤ mo ∧ mo ≤ 12 then
      match mkDatetimeLocal y mo d h mi with
      | some dt => .ok (some dt)
      | none => .error ()
    else .ok none
  | none => .ok none

/-- `parse_date_from_text` from the source.  `.error ()` models an uncaught
`ValueError` raised by the `datetime` constructor. -/
def parse_date_from_text (text : String) : Except Unit (Option PyDatetime) :=
  if text = "" then .ok none
  else
    match searchRE1 text.data with
    | some (d, name, y, h, mi) =>
      match RU_MONTHS.lookup (lowerStr name) with
      | some mon =>
        (match mkDatetimeLocal y mon d h mi with
         | some dt => .ok (some dt)
         | none => .error ())
      | none => re2Branch text.data
    | none => re2Branch text.data

/-! ## Feed discovery (`detect_feed_urls`) -/

def COMMON_FEEDS : List String :=
  ["feed/", "feed", "rss.xml", "rss", "rss/", "atom", "atom/",
   "?format=feed&type=rss", "?format=feed&type=atom"]

/-- Order-preserving dedup over strings (first occurrence wins). -/
def dedupAuxStr : List String → List String → List String
  | [], _ => []
  | u :: rest, seen =>
    if u ∈ seen then dedupAuxStr rest seen else u :: dedupAuxStr rest (u :: seen)

def dedupStr (l : List String) : List String := dedupAuxStr l []

/-- The two accumulation loops of `detect_feed_urls`, sharing one `seen` set:
first the discovered alternate links, then the conventional suffixes. -/
def detectLoop (home_url : String) : List String → List String → List String → List String
  | [], _, found => found
  | u :: rest, seen, found =>
    if is_same_site u home_url ∧ u ∉ seen then
      detectLoop home_url rest (u :: seen) (found ++ [u])
    else detectLoop home_url rest seen found

/-- `detect_feed_urls` from the source.  `altHrefs` are the `href` values of
the `<link rel="alternate">` elements whose type mentions rss/atom/xml, as
extracted by the BeautifulSoup collaborator from the fetched page (an empty
list also covers the silently-swallowed fetch failure).  The conventional
suffixes are joined against `page_url.rstrip("/") + "/"`. -/
def detect_feed_urls (altHrefs : List String) (page_url home_url : String) : List String :=
  let alternates := altHrefs.map (fun h => urljoin page_url h)
  let base := pyRstrip "/" page_url ++ "/"
  let conventional := COMMON_FEEDS.map (fun tail => urljoin base tail)
  detectLoop home_url (alternates ++ conventional) [] []

/-! ## The HTML article extractor (`parse_article`)

The DOM work (locating the first `h1`, walking ancestors until 250
characters of text accumulate, `clean_container`) is BeautifulSoup
collaborator territory; its results enter the model as the stripped heading
text and the stripped container text.  Everything after `text =
first_text(container)` is pure string manipulation and is embedded
faithfully. -/

structure ArticlePage where
  /-- `first_text(soup.find("h1"))`: `""` when no `h1` exists; otherwise the
  whitespace-stripped visible heading text. -/
  h1text : String
  /-- `first_text(container)` after `clean_container`. -/
  containerText : String
deriving DecidableEq, Repr

/-- The body-cleaning chain of `parse_article`: cut everything before the
first occurrence of the heading text, then strip the heading text itself and
leading separator punctuation. -/
def cleanBody (h1_title text : String) : String :=
  let t := match findSubIdx text.data h1_title.data with
    | some p => String.mk (text.data.drop p)
    | none => text
  if listStartsWith t.data h1_title.data then
    pyLstrip " \t\r\n-–—:|" (String.mk (t.data.drop h1_title.data.length))
  else t

/-- `h1_title = first_text(soup.find("h1")) or "Новость"`. -/
def articleH1 (pg : ArticlePage) : String :=
  if pg.h1text = "" then "Новость" else pg.h1text

/-- `title = f"[{org_name}] {h1_title}".strip()`. -/
def articleTitle0 (org_name h1t : String) : String :=
  stripWsStr ("[" ++ org_name ++ "] " ++ h1t)

/-- `desc = text[:600] + ("…" if len(text) > 600 else "")` over the cleaned
body. -/
def articleDesc0 (h1t text0 : String) : String :=
  takeChars 600 (cleanBody h1t text0)
    ++ (if 600 < lenChars (cleanBody h1t text0) then "…" else "")

/-- `if not desc: desc = h1_title or "Новость"`. -/
def articleDesc (h1t text0 : String) : String :=
  if articleDesc0 h1t text0 = "" then (if h1t = "" then "Новость" else h1t)
  else articleDesc0 h1t text0

/-- `parse_article` from the source.  `finalUrl` is the post-redirect URL of
the fetch; `pageDt` is the result of `parse_date_from_page` (the date
resolver applied to the page, a collaborator input here). -/
def parse_article (finalUrl : String) (pg : ArticlePage) (pageDt : Option Nat)
    (org_name home_url : String) : Option Item :=
  if is_same_site finalUrl home_url = false then none
  else some
    { title := if articleTitle0 org_name (articleH1 pg) = "" then "[" ++ org_name ++ "] Новость"
               else articleTitle0 org_name (articleH1 pg)
      link := finalUrl
      description := articleDesc (articleH1 pg) pg.containerText
      dt := pageDt }

/-! ## Aggregation and merge (the tail of `main`) -/

/-- The sort key of `main`: `dt.astimezone(utc)` for dated items (instants
are already stored as UTC seconds here), and the sentinel
`datetime.min.replace(tzinfo=utc)` — second `0` — for undated ones. -/
def key_dt (it : Item) : Nat :=
  match it.dt with
  | some n => n
  | none => 0

/-- The link-dedup loop of `main`: keep an item when its link is non-empty
and unseen. -/
def dedupLinks : List Item → List String → List Item
  | [], _ => []
  | it :: rest, seen =>
    if it.link ≠ "" ∧ it.link ∉ seen then it :: dedupLinks rest (it.link :: seen)
    else dedupLinks rest seen

/-- Stable insertion for a descending sort.  `sortDesc` inserts each element
into the sorted version of its TAIL, i.e. of elements that all came after it
in the input, so stability demands that the inserted element land in front
of every element with an equal key: it goes in front of the first element
whose key is `≤` its own (elements skipped over have strictly larger keys,
so the descending order is preserved).  Since any two stable sorts for the
same total preorder agree, this insertion sort computes exactly the result
of Python's stable `list.sort(key=key_dt, reverse=True)`; the tie behaviour
is proved below (`sortDesc_const_key` and the concrete tie examples in the
C1 theorem), not merely asserted. -/
def insertDesc (x : Item) : List Item → List Item
  | [] => [x]
  | y :: ys => if key_dt y ≤ key_dt x then x :: y :: ys else y :: insertDesc x ys

def sortDesc : List Item → List Item
  | [] => []
  | x :: xs => insertDesc x (sortDesc xs)

/-- The merge stage of `main` applied to the concatenated accepted items of
all sources (in configuration order): dedup by link, stable sort by resolved
instant descending (undated ↦ the `datetime.min` sentinel), truncate to the
global cap. -/
def aggregate (all_items : List Item) : List Item :=
  (sortDesc (dedupLinks all_items [])).take TOTAL_LIMIT

/-! ## The serializer (`make_rss`)

`ElementTree.tostring(..., encoding="utf-8")` emits its own XML declaration
after the hand-written one; text nodes are escaped (`&`, `<`, `>`) and an
element with empty text serializes as a short empty tag.  The current time
(`datetime.now(timezone.utc)`) is an explicit `now` parameter, in UTC
seconds. -/

def OUT_TITLE : String := "Новости учреждений доп. образования Иркутска"
def OUT_LINK : String := "https://eduirk.ru/"

def escChar (c : Char) : String :=
  if c = '&' then "&amp;"
  else if c = '<' then "&lt;"
  else if c = '>' then "&gt;"
  else String.mk [c]

def escapeXml (s : String) : String := String.join (s.data.map escChar)

def textEl (tag txt : String) : String :=
  if txt = "" then "<" ++ tag ++ " />"
  else "<" ++ tag ++ ">" ++ escapeXml txt ++ "</" ++ tag ++ ">"

def pad2 (n : Nat) : String := if n < 10 then "0" ++ toString n else toString n

def pad4 (n : Nat) : String :=
  if n < 10 then "000" ++ toString n
  else if n < 100 then "00" ++ toString n
  else if n < 1000 then "0" ++ toString n
  else toString n

def dayNames : List String := ["Mon", "Tue", "Wed", "Thu", "Fri", "Sat", "Sun"]

def monthNames : List String :=
  ["Jan", "Feb", "Mar", "Apr", "May", "Jun", "Jul", "Aug", "Sep", "Oct", "Nov", "Dec"]

/-- `strftime("%a, %d %b %Y %H:%M:%S GMT")` of a UTC instant
(0001-01-01 of the proleptic Gregorian calendar is a Monday). -/
def rfc822OfSec (n : Nat) : String :=
  let days := n / 86400
  let (y, mo, d) := civilFromDays days
  let rem := n % 86400
  (dayNames.getD (days % 7) "") ++ ", " ++ pad2 d ++ " "
    ++ (monthNames.getD (mo - 1) "") ++ " " ++ toString y ++ " "
    ++ pad2 (rem / 3600) ++ ":" ++ pad2 (rem % 3600 / 60) ++ ":" ++ pad2 (rem % 60)
    ++ " GMT"

/-- `isoformat(timespec="seconds")` of a UTC instant with `+00:00` replaced
by `Z`. -/
def iso8601OfSec (n : Nat) : String :=
  let days := n / 86400
  let (y, mo, d) := civilFromDays days
  let rem := n % 86400
  pad4 y ++ "-" ++ pad2 mo ++ "-" ++ pad2 d ++ "T"
    ++ pad2 (rem / 3600) ++ ":" ++ pad2 (rem % 3600 / 60) ++ ":" ++ pad2 (rem % 60) ++ "Z"

def rss_date_now (now : Nat) : String := rfc822OfSec now

/-- One `<item>` element: the two date fields use the item's instant, or the
current time when the item is undated (the display-time fallback). -/
def itemXml (now : Nat) (it : Item) : String :=
  "<item>"
    ++ textEl "title" (if it.title = "" then "Новость" else it.title)
    ++ textEl "link" it.link
    ++ textEl "guid" it.link
    ++ textEl "pubDate" (rfc822OfSec (it.dt.getD now))
    ++ textEl "dc:date" (iso8601OfSec (it.dt.getD now))
    ++ textEl "description" it.description
    ++ "</item>"

def itemsXml (items : List Item) (now : Nat) : String :=
  String.join (items.map (itemXml now))

/-- The document around the build date and the item elements. -/
def rssDoc (buildDate itemsStr : String) : String :=
  "<?xml version=\"1.0\" encoding=\"UTF-8\"?>\n<?xml version='1.0' encoding='utf-8'?>\n"
    ++ "<rss xmlns:dc=\"http://purl.org/dc/elements/1.1/\" version=\"2.0\"><channel>"
    ++ textEl "title" OUT_TITLE
    ++ textEl "link" OUT_LINK
    ++ textEl "description" OUT_TITLE
    ++ "<lastBuildDate>" ++ buildDate ++ "</lastBuildDate>"
    ++ itemsStr
    ++ "</channel></rss>"

/-- `make_rss` from the source. -/
def make_rss (items : List Item) (now : Nat) : String :=
  rssDoc (rss_date_now now) (itemsXml items now)

/-! ## Spec-side definitions, used only to compare the code against the
claims' wording -/

/-- Follows the spec's words for feed classification (§4.2): feed-like iff
the content-type mentions a syndication/XML family and the body does not
start with an HTML document marker, or the body itself starts with an
XML/RSS/Atom marker regardless of content-type. -/
def specFeedLike (r : PyResp) : Bool :=
  let ct := lowerStr r.ctype
  let body := lowerStr r.body
  ((containsSubStr ct "rss" || containsSubStr ct "atom" || containsSubStr ct "xml")
      && !(strStartsWith body "<html" || strStartsWith body "<!doctype html"))
    || (strStartsWith body "<?xml" || strStartsWith body "<rss" || strStartsWith body "<feed")

/-- Follows the spec's words for feed discovery (§4.3 / claim C8): each
conventional suffix is joined to the page URL's DIRECTORY (i.e. resolved
relative to the page URL itself, which replaces its last path segment), the
results are kept only when same-site, and the whole candidate list is
deduplicated preserving order. -/
def specDiscoverFeeds (altHrefs : List String) (page_url home_url : String) : List String :=
  let alternates :=
    (altHrefs.map (fun h => urljoin page_url h)).filter (fun u => is_same_site u home_url)
  let conventional :=
    (COMMON_FEEDS.map (fun t => urljoin page_url t)).filter (fun u => is_same_site u home_url)
  dedupStr (alternates ++ conventional)

/-! ## Generic helper lemmas -/

theorem listStartsWith_append (p t : List Char) : listStartsWith (p ++ t) p = true := by
  induction p with
  | nil => cases t <;> rfl
  | cons c cs ih => simp [listStartsWith, ih]

theorem string_ne_empty_of_data {s : String} {c : Char} {l : List Char}
    (h : s.data = c :: l) : s ≠ "" := by
  intro he
  rw [he] at h
  exact List.noConfusion h

/-! ## Claim C2: the same-site predicate -/

/-- C2, counterexample.  The claim states `isSameSite(u, h)` is reflexive
whenever `u == h`; for the URL `"http://"` the normalized host is empty and
`is_same_site` returns `false`, so reflexivity fails exactly where the
claim's own both-empty carve-out applies. -/
theorem c2_counterexample :
    is_same_site "http://" "http://" = false ∧ norm_host_from_url "http://" = "" := by
  decide

/-- C2, amended.  `is_same_site u h` is true iff BOTH normalized hosts are
non-empty and they are equal or the candidate is a strict subdomain
(suffix match on `"." ++ home`); reflexivity holds whenever the normalized
host is non-empty; the two concrete examples of the claim hold. -/
theorem c2_same_site_amended :
    (∀ u h : String, is_same_site u h = true ↔
      (norm_host_from_url u ≠ "" ∧ norm_host_from_url h ≠ "" ∧
        (norm_host_from_url u = norm_host_from_url h ∨
          strEndsWith (norm_host_from_url u) ("." ++ norm_host_from_url h) = true))) ∧
    (∀ u : String, norm_host_from_url u ≠ "" → is_same_site u u = true) ∧
    is_same_site "http://sub.x.com" "http://x.com" = true ∧
    is_same_site "http://evilx.com" "http://x.com" = false := by
  refine ⟨?_, ?_, by decide, by decide⟩
  · intro u h
    simp only [is_same_site]
    by_cases ha : norm_host_from_url u = "" <;> by_cases he : norm_host_from_url h = "" <;>
      simp [ha, he]
  · intro u hu
    simp [is_same_site, hu]

/-- C2, witness for the amended theorem. -/
theorem c2_same_site_amended_witness :
    is_same_site "http://x.com/page" "http://x.com/page" = true :=
  c2_same_site_amended.2.1 "http://x.com/page" (by decide)

/-! ## Claim C3: host normalization -/

/-- C3.  The claim says `normalizeHost` strips a leading `"www."` prefix and
nothing else, so a host that does not begin with the four-character prefix
`"www."` keeps all of its leading characters.  The code instead calls
`host.lstrip("www.")`, whose Python semantics strip every leading character
drawn from the SET `{'w', '.'}`: the host `web.example.com` (which does not
begin with `"www."`) loses its leading `w`.  This evaluates the code at the
failing input. -/
theorem c3_norm_host_eval :
    norm_host_from_url "https://web.example.com/news" = "eb.example.com" ∧
    strStartsWith "web.example.com" "www." = false := by
  decide

/-! ## Claim C4: exhaustion and 403 handling of the fetcher -/

/-- C4, counterexample.  The claim says the fetch call never returns a
403-class response.  When all three strategies return 403, the code returns
the third strategy's 403 response (`return r3` is unconditional). -/
theorem c4_counterexample :
    fetch_url (.resp ⟨403, "", "one", "u"⟩) (.resp ⟨403, "", "two", "u"⟩)
        (.resp ⟨403, "", "three", "u"⟩)
      = .ok ⟨403, "", "three", "u"⟩ := by
  rfl

/-- C4, amended.  (i) The call fails only when strategy 1 raised, strategy 2
raised or returned 403, and strategy 3 raised, and then always with the
generic `"All fetch methods failed"` condition (the last transport exception
is logged, never surfaced).  (ii) A 403 can be returned, but only as the
strategy 3 response or — when strategy 3 raises — as the saved strategy 1
response.  (iii) A 403 from strategy 1 does advance to strategy 2, whose
non-403 response is returned. -/
theorem c4_fetch_amended :
    (∀ a1 a2 a3 s, fetch_url a1 a2 a3 = .error s ↔
      (s = "All fetch methods failed" ∧ a1 = .exn ∧
        (a2 = .exn ∨ ∃ r2, a2 = .resp r2 ∧ r2.status = 403) ∧ a3 = .exn)) ∧
    (∀ a1 a2 a3 r, fetch_url a1 a2 a3 = .ok r → r.status = 403 →
      a3 = .resp r ∨ (a3 = .exn ∧ a1 = .resp r)) ∧
    (∀ r1 r2 a3, r1.status = 403 → r2.status ≠ 403 →
      fetch_url (.resp r1) (.resp r2) a3 = .ok r2) := by
  refine ⟨?_, ?_, ?_⟩
  · intro a1 a2 a3 s
    cases a1 <;> cases a2 <;> cases a3 <;> simp only [fetch_url] <;>
      first
        | (split_ifs <;> simp_all [eq_comm])
        | simp_all [eq_comm]
  · intro a1 a2 a3 r hok h403
    cases a1 <;> cases a2 <;> cases a3 <;> simp only [fetch_url] at hok <;>
      first
        | (split_ifs at hok <;> simp_all)
        | simp_all
  · intro r1 r2 a3 h1 h2
    cases a3 <;> simp [fetch_url, h1, h2]

/-- C4, witness for the amended theorem. -/
theorem c4_fetch_amended_witness :
    fetch_url (.resp ⟨403, "", "one", "u"⟩) (.resp ⟨200, "", "two", "u"⟩) .exn
      = .ok ⟨200, "", "two", "u"⟩ :=
  c4_fetch_amended.2.2 ⟨403, "", "one", "u"⟩ ⟨200, "", "two", "u"⟩ .exn rfl (by decide)

/-! ## Claim C5: feed-intent acceptance -/

/-- C5, counterexample.  The claim says that with feed intent a response is
accepted only when classified feed-like, and anything else causes the next
strategy to be tried.  The code's `fetch_url` has no intent parameter and no
content classification: a 200 bot-block HTML page from strategy 1 is
returned immediately even though strategy 2 would have produced a feed-like
200. -/
theorem c5_counterexample :
    fetch_url
        (.resp ⟨200, "text/html", "<html><body>Access denied</body></html>", "http://x.com/feed"⟩)
        (.resp ⟨200, "application/rss+xml", "<?xml version=\"1.0\"?><rss></rss>", "http://x.com/feed"⟩)
        .exn
      = .ok ⟨200, "text/html", "<html><body>Access denied</body></html>", "http://x.com/feed"⟩ ∧
    specFeedLike ⟨200, "text/html", "<html><body>Access denied</body></html>", "http://x.com/feed"⟩
      = false ∧
    specFeedLike ⟨200, "application/rss+xml", "<?xml version=\"1.0\"?><rss></rss>", "http://x.com/feed"⟩
      = true :=
  ⟨rfl, by decide, by decide⟩

/-- C5, amended.  The fetcher is intent-blind: any non-403 response from
strategy 1 is returned without feed classification.  Feed-likeness is
enforced only afterwards by the Feed Extractor, which returns an empty
result — without trying another transport strategy — whenever the first 400
lowercased bytes contain an HTML marker. -/
theorem c5_fetch_intent_amended :
    (∀ (r : PyResp) (a2 a3 : FetchAttempt), r.status ≠ 403 →
      fetch_url (.resp r) a2 a3 = .ok r) ∧
    (∀ r feedLink entries fu org home,
      containsSubStr (lowerStr (takeChars 400 r.body)) "<html" = true →
      parse_from_feed (some r) feedLink entries fu org home = []) := by
  constructor
  · intro r a2 a3 h
    simp [fetch_url, h]
  · intro r fl es fu org home hc
    simp only [parse_from_feed]
    split_ifs with h1 h2
    · rfl
    · rfl
    · exact absurd (Or.inl hc) h2

/-- C5, witness for the amended theorem. -/
theorem c5_fetch_intent_amended_witness :
    fetch_url (.resp ⟨200, "", "", "u"⟩) .exn .exn = .ok ⟨200, "", "", "u"⟩ :=
  c5_fetch_intent_amended.1 ⟨200, "", "", "u"⟩ .exn .exn (by decide)

/-! ## Claim C6: feed classification markers -/

/-- C6, counterexample.  The claim says a body starting with `<?xml` is
feed-like regardless of content-type and the extractor returns empty exactly
when status ≥ 400 or the body STARTS with an HTML marker.  The code instead
tests substring CONTAINMENT over the first 400 lowercased bytes: a body that
starts with `<?xml` but mentions `<html` in its head is rejected even though
its entries would have produced an item. -/
theorem c6_counterexample :
    parse_from_feed
        (some ⟨200, "application/rss+xml",
          "<?xml version=\"1.0\"?><rss><channel><description><html</description></channel></rss>",
          "http://x.com/feed"⟩)
        none [⟨"http://x.com/a", "T", "S", none⟩] "http://x.com/feed" "Org" "http://x.com"
      = [] ∧
    strStartsWith
      "<?xml version=\"1.0\"?><rss><channel><description><html</description></channel></rss>"
      "<?xml" = true ∧
    strStartsWith
      (lowerStr
        "<?xml version=\"1.0\"?><rss><channel><description><html</description></channel></rss>")
      "<html" = false ∧
    strStartsWith
      (lowerStr
        "<?xml version=\"1.0\"?><rss><channel><description><html</description></channel></rss>")
      "<!doctype html" = false ∧
    ¬ (400 ≤ (200 : Nat)) ∧
    (entriesLoop "http://x.com/feed" "Org" "http://x.com"
      [⟨"http://x.com/a", "T", "S", none⟩] []).length = 1 := by
  refine ⟨by rfl, by decide, by decide, by decide, by decide, by rfl⟩

/-- C6, amended.  The Feed Extractor returns an empty result exactly when
the fetch raised, the status is ≥ 400, the first 400 lowercased bytes
CONTAIN `"<html"` or `"<!doctype html"` as a substring (content-type plays
no role), or no entry survives link validation; when none of the rejection
conditions hold, the result is exactly the entry-mapping loop. -/
theorem c6_feed_reject_amended :
    (∀ fetched feedLink entries fu org home,
      parse_from_feed fetched feedLink entries fu org home = [] ↔
        (fetched = none ∨ ∃ r, fetched = some r ∧
          (400 ≤ r.status ∨
            (containsSubStr (lowerStr (takeChars 400 r.body)) "<html" = true ∨
             containsSubStr (lowerStr (takeChars 400 r.body)) "<!doctype html" = true) ∨
            entriesLoop (feedBase feedLink fu) org home entries [] = []))) ∧
    (∀ r feedLink entries fu org home, ¬ 400 ≤ r.status →
      containsSubStr (lowerStr (takeChars 400 r.body)) "<html" = false →
      containsSubStr (lowerStr (takeChars 400 r.body)) "<!doctype html" = false →
      parse_from_feed (some r) feedLink entries fu org home =
        entriesLoop (feedBase feedLink fu) org home entries []) := by
  constructor
  · intro fetched fl es fu org home
    cases fetched with
    | none => simp [parse_from_feed]
    | some r =>
      simp only [parse_from_feed]
      split_ifs with h1 h2
      · simp [h1]
      · simp only [Bool.or_eq_true] at h2
        simp [h2]
      · simp only [Bool.or_eq_true] at h2
        push_neg at h2
        simp [h1, h2]
  · intro r fl es fu org home h1 h2 h3
    simp only [parse_from_feed]
    split_ifs with g1
    · rcases g1 with g | g
      · rw [h2] at g; exact absurd g (by decide)
      · rw [h3] at g; exact absurd g (by decide)
    · rfl

/-- C6, witness for the amended theorem. -/
theorem c6_feed_reject_amended_witness :
    parse_from_feed (some ⟨200, "application/rss+xml", "<?xml version=\"1.0\"?><rss></rss>", "u"⟩)
        none [] "http://x.com/feed" "Org" "http://x.com"
      = entriesLoop (feedBase none "http://x.com/feed") "Org" "http://x.com" [] [] :=
  c6_feed_reject_amended.2 ⟨200, "application/rss+xml", "<?xml version=\"1.0\"?><rss></rss>", "u"⟩
    none [] "http://x.com/feed" "Org" "http://x.com" (by decide) (by decide) (by decide)

/-! ## Claim C7: the textual date resolver -/

theorem mkDatetimeLocal_off {y mo d h mi : Nat} {dt : PyDatetime}
    (hm : mkDatetimeLocal y mo d h mi = some dt) : dt.offMin = LOCAL_TZ_MIN := by
  unfold mkDatetimeLocal at hm
  split_ifs at hm
  cases hm
  rfl

theorem re2Branch_off {l : List Char} {dt : PyDatetime}
    (h : re2Branch l = .ok (some dt)) : dt.offMin = LOCAL_TZ_MIN := by
  unfold re2Branch at h
  split at h
  · split_ifs at h
    · split at h
      · rename_i hm
        simp only [Except.ok.injEq, Option.some.injEq] at h
        subst h
        exact mkDatetimeLocal_off hm
      · exact Except.noConfusion h
    · simp at h
  · simp at h

/-- C7, counterexample.  The claim says the resolver returns an aware
instant or none for every input, never failing in any other way; but on
`"31.02.2025 10:28"` the numeric pattern matches, the month passes the 1–12
check, and the `datetime` constructor raises `ValueError` (day 31 does not
exist in February), which propagates out of `parse_date_from_text`. -/
theorem c7_counterexample :
    parse_date_from_text "31.02.2025 10:28" = .error () := by
  rfl

/-- C7, amended.  The Russian long-form example and the numeric example
resolve to the identical instant (day 11, month 12, year 2025, 10:28 at the
fixed UTC+8 offset); the invalid-month example resolves to none; every
returned instant carries the fixed UTC+8 offset; and when neither pattern
matches anywhere in the text the resolver returns none.  However, a matched
pattern whose fields are calendar-invalid makes the `datetime` constructor's
`ValueError` escape (see the counterexample) instead of yielding none. -/
theorem c7_date_resolver_amended :
    parse_date_from_text "11 декабря 2025, 10:28" = .ok (some ⟨2025, 12, 11, 10, 28, 0, 480⟩) ∧
    parse_date_from_text "11.12.2025 10:28" = .ok (some ⟨2025, 12, 11, 10, 28, 0, 480⟩) ∧
    parse_date_from_text "13.45.2025 10:28" = .ok none ∧
    (∀ t dt, parse_date_from_text t = .ok (some dt) → dt.offMin = LOCAL_TZ_MIN) ∧
    (∀ t : String, searchRE1 t.data = none → searchRE2 t.data = none →
      parse_date_from_text t = .ok none) := by
  refine ⟨by rfl, by rfl, by rfl, ?_, ?_⟩
  · intro t dt h
    unfold parse_date_from_text at h
    split_ifs at h
    · simp at h
    · split at h
      · split at h
        · split at h
          · rename_i hm
            simp only [Except.ok.injEq, Option.some.injEq] at h
            subst h
            exact mkDatetimeLocal_off hm
          · exact Except.noConfusion h
        · exact re2Branch_off h
      · exact re2Branch_off h
  · intro t h1 h2
    unfold parse_date_from_text
    split_ifs
    · rfl
    · rw [h1]
      unfold re2Branch
      rw [h2]

/-- C7, witness for the amended theorem. -/
theorem c7_date_resolver_amended_witness :
    parse_date_from_text "Школа проводит день открытых дверей" = .ok none :=
  c7_date_resolver_amended.2.2.2.2 "Школа проводит день открытых дверей"
    (by rfl) (by rfl)

/-! ## Claim C8: feed discovery -/

theorem detectLoop_eq (home : String) (l : List String) : ∀ (seen found : List String),
    detectLoop home l seen found =
      found ++ dedupAuxStr (l.filter (fun u => is_same_site u home)) seen := by
  induction l with
  | nil => intro seen found; simp [detectLoop, dedupAuxStr]
  | cons u rest ih =>
    intro seen found
    simp only [detectLoop, List.filter_cons]
    by_cases hs : is_same_site u home = true <;> by_cases hm : u ∈ seen <;>
      simp [hs, hm, ih, dedupAuxStr]

theorem mem_dedupAuxStr {x : String} : ∀ {l seen : List String},
    x ∈ dedupAuxStr l seen → x ∈ l ∧ x ∉ seen := by
  intro l
  induction l with
  | nil => intro seen h; simp [dedupAuxStr] at h
  | cons u rest ih =>
    intro seen h
    simp only [dedupAuxStr] at h
    split_ifs at h with hm
    · rcases ih h with ⟨h1, h2⟩
      exact ⟨List.mem_cons_of_mem _ h1, h2⟩
    · rcases List.mem_cons.mp h with he | hr
      · subst he
        exact ⟨List.mem_cons_self _ _, hm⟩
      · rcases ih hr with ⟨h1, h2⟩
        refine ⟨List.mem_cons_of_mem _ h1, fun hx => h2 (List.mem_cons_of_mem _ hx)⟩

theorem pairwise_ne_dedupAuxStr : ∀ (l seen : List String),
    (dedupAuxStr l seen).Pairwise (· ≠ ·) := by
  intro l
  induction l with
  | nil => intro seen; simp [dedupAuxStr]
  | cons u rest ih =>
    intro seen
    simp only [dedupAuxStr]
    split_ifs with hm
    · exact ih seen
    · refine List.Pairwise.cons ?_ (ih (u :: seen))
      intro y hy
      have := (mem_dedupAuxStr hy).2
      intro he
      exact this (he ▸ List.mem_cons_self _ _)

/-- C8, counterexample.  The claim says the conventional suffixes are joined
to the page URL's DIRECTORY; the code joins them to the page URL itself
(trailing slashes stripped, one slash appended).  For the page
`http://x.com/news.php` the spec-side list contains `http://x.com/feed/`
while the code's list does not (it contains
`http://x.com/news.php/feed/` instead). -/
theorem c8_counterexample :
    (detect_feed_urls [] "http://x.com/news.php" "http://x.com/" ==
      specDiscoverFeeds [] "http://x.com/news.php" "http://x.com/") = false ∧
    (specDiscoverFeeds [] "http://x.com/news.php" "http://x.com/").contains
      "http://x.com/feed/" = true ∧
    (detect_feed_urls [] "http://x.com/news.php" "http://x.com/").contains
      "http://x.com/feed/" = false ∧
    (detect_feed_urls [] "http://x.com/news.php" "http://x.com/").contains
      "http://x.com/news.php/feed/" = true := by
  refine ⟨by decide, by decide, by decide, by decide⟩

/-- C8, amended.  `detect_feed_urls` returns the same-site-filtered
alternate links followed by the conventional candidates joined to the page
URL itself normalized to end in exactly one slash (`rstrip("/") + "/"`),
the whole list deduplicated preserving order; every returned URL is
same-site to the home URL and the list has no duplicates. -/
theorem c8_discover_amended :
    (∀ altHrefs page_url home_url,
      detect_feed_urls altHrefs page_url home_url =
        dedupStr
          (((altHrefs.map (fun h => urljoin page_url h)).filter
              (fun u => is_same_site u home_url)) ++
            ((COMMON_FEEDS.map (fun t => urljoin (pyRstrip "/" page_url ++ "/") t)).filter
              (fun u => is_same_site u home_url)))) ∧
    (∀ altHrefs page_url home_url,
      (detect_feed_urls altHrefs page_url home_url).Pairwise (· ≠ ·)) ∧
    (∀ altHrefs page_url home_url u, u ∈ detect_feed_urls altHrefs page_url home_url →
      is_same_site u home_url = true) := by
  have key : ∀ (altHrefs : List String) (page_url home_url : String),
      detect_feed_urls altHrefs page_url home_url =
        dedupAuxStr
          (((altHrefs.map (fun h => urljoin page_url h)) ++
            (COMMON_FEEDS.map (fun t => urljoin (pyRstrip "/" page_url ++ "/") t))).filter
              (fun u => is_same_site u home_url)) [] := by
    intro altHrefs page_url home_url
    simp [detect_feed_urls, detectLoop_eq]
  refine ⟨?_, ?_, ?_⟩
  · intro altHrefs page_url home_url
    rw [key, dedupStr, List.filter_append]
  · intro altHrefs page_url home_url
    rw [key]
    exact pairwise_ne_dedupAuxStr _ _
  · intro altHrefs page_url home_url u hu
    rw [key] at hu
    have := (mem_dedupAuxStr hu).1
    exact (List.mem_filter.mp this).2

/-- C8, witness for the amended theorem. -/
theorem c8_discover_amended_witness :
    is_same_site "http://x.com/news/feed/" "http://x.com/" = true :=
  c8_discover_amended.2.2 [] "http://x.com/news/" "http://x.com/" "http://x.com/news/feed/"
    (by decide)

/-! ## Claim C1: the aggregation and merge stage -/

theorem mem_dedupLinks {x : Item} : ∀ {xs : List Item} {seen : List String},
    x ∈ dedupLinks xs seen →
    x.link ≠ "" ∧ x.link ∉ seen ∧ xs.find? (fun j => j.link == x.link) = some x := by
  intro xs
  induction xs with
  | nil => intro seen h; simp [dedupLinks] at h
  | cons it rest ih =>
    intro seen h
    simp only [dedupLinks] at h
    split_ifs at h with hc
    · rcases List.mem_cons.mp h with he | hr
      · subst he
        exact ⟨hc.1, hc.2, List.find?_cons_of_pos _ (by simp)⟩
      · rcases ih hr with ⟨h1, h2, h3⟩
        have hne : x.link ≠ it.link := fun he => h2 (he ▸ List.mem_cons_self _ _)
        refine ⟨h1, fun hx => h2 (List.mem_cons_of_mem _ hx), ?_⟩
        have hside : ¬(it.link == x.link) = true := fun hb => hne (eq_of_beq hb).symm
        exact (@List.find?_cons_of_neg _ (fun j => j.link == x.link) it rest hside).trans h3
    · rcases ih h with ⟨h1, h2, h3⟩
      have hne : it.link ≠ x.link := by
        rcases not_and_or.mp hc with hl | hl
        · push_neg at hl
          rw [hl]
          exact fun he => h1 he.symm
        · push_neg at hl
          exact fun he => h2 (he ▸ hl)
      refine ⟨h1, h2, ?_⟩
      have hside : ¬(it.link == x.link) = true := fun hb => hne (eq_of_beq hb)
      exact (@List.find?_cons_of_neg _ (fun j => j.link == x.link) it rest hside).trans h3

theorem pairwise_ne_dedupLinks : ∀ (xs : List Item) (seen : List String),
    (dedupLinks xs seen).Pairwise (fun a b => a.link ≠ b.link) := by
  intro xs
  induction xs with
  | nil => intro seen; simp [dedupLinks]
  | cons it rest ih =>
    intro seen
    simp only [dedupLinks]
    split_ifs with hc
    · refine List.Pairwise.cons ?_ (ih _)
      intro y hy he
      have hmem := (mem_dedupLinks hy).2.1
      exact hmem (by rw [← he]; exact List.mem_cons_self _ _)
    · exact ih _

theorem perm_insertDesc (x : Item) : ∀ l, List.Perm (insertDesc x l) (x :: l) := by
  intro l
  induction l with
  | nil => exact List.Perm.refl _
  | cons y ys ih =>
    simp only [insertDesc]
    split_ifs
    · exact List.Perm.refl _
    · exact (ih.cons y).trans (List.Perm.swap x y ys)

theorem perm_sortDesc : ∀ l, List.Perm (sortDesc l) l := by
  intro l
  induction l with
  | nil => exact List.Perm.refl _
  | cons x xs ih => exact (perm_insertDesc x (sortDesc xs)).trans (ih.cons x)

theorem pairwise_key_insertDesc {x : Item} : ∀ {l : List Item},
    l.Pairwise (fun a b => key_dt b ≤ key_dt a) →
    (insertDesc x l).Pairwise (fun a b => key_dt b ≤ key_dt a) := by
  intro l
  induction l with
  | nil => intro _; simp [insertDesc]
  | cons y ys ih =>
    intro h
    rcases List.pairwise_cons.mp h with ⟨hy, hys⟩
    simp only [insertDesc]
    split_ifs with hk
    · refine List.Pairwise.cons ?_ h
      intro z hz
      rcases List.mem_cons.mp hz with he | hm
      · subst he; exact hk
      · exact le_trans (hy z hm) hk
    · refine List.Pairwise.cons ?_ (ih hys)
      intro z hz
      rcases List.mem_cons.mp ((perm_insertDesc x ys).mem_iff.mp hz) with he | hm
      · subst he; omega
      · exact hy z hm

theorem pairwise_key_sortDesc : ∀ l : List Item,
    (sortDesc l).Pairwise (fun a b => key_dt b ≤ key_dt a) := by
  intro l
  induction l with
  | nil => simp [sortDesc]
  | cons x xs ih => exact pairwise_key_insertDesc ih

/-- Tie stability of the sort embedding: a list whose items all share one
key — in particular a run in which every item is undated, so that every key
is the `datetime.min` sentinel `0` — is left exactly in its first-seen
order, as Python's stable `list.sort` does. -/
theorem sortDesc_const_key {k : Nat} : ∀ {l : List Item},
    (∀ it ∈ l, key_dt it = k) → sortDesc l = l := by
  intro l
  induction l with
  | nil => intro _; rfl
  | cons x xs ih =>
    intro h
    simp only [sortDesc]
    rw [ih (fun it hit => h it (List.mem_cons_of_mem _ hit))]
    cases xs with
    | nil => rfl
    | cons y ys =>
      have hy : key_dt y = k := h y (List.mem_cons_of_mem _ (List.mem_cons_self _ _))
      have hx : key_dt x = k := h x (List.mem_cons_self _ _)
      simp only [insertDesc]
      rw [if_pos (by omega)]

/-- C1.  For every concatenated accepted-item list, the aggregate is sorted
by resolved publication instant descending with undated items carrying the
`datetime.min` sentinel key `0` (so everything following an undated item has
the sentinel key — undated items sink to the end), links are pairwise
distinct, every output item is exactly the FIRST input item bearing its link
(the first-seen title and description win), the length is capped at
`TOTAL_LIMIT = 200`, and the serializer emits one `<item>` element per
aggregate entry in exactly this order.  The sort is stable, matching
Python's `list.sort(key=key_dt, reverse=True)`: an input consisting solely
of undated items (all tied at the sentinel key) is aggregated in first-seen
order exactly.  The two concrete scenarios from the spec (the three-instant
sort example and the duplicate-link example) are verified, plus two
tie-order examples: three undated items keep their source order, and two
items tied on the same instant keep their source order around a newer
item. -/
theorem c1_aggregate_merge :
    (∀ xs : List Item,
      ((aggregate xs).Pairwise (fun a b => key_dt b ≤ key_dt a)) ∧
      ((aggregate xs).Pairwise (fun a b => a.dt = none → key_dt b = 0)) ∧
      ((aggregate xs).Pairwise (fun a b => a.link ≠ b.link)) ∧
      (∀ it ∈ aggregate xs, xs.find? (fun j => j.link == it.link) = some it) ∧
      ((aggregate xs).length ≤ TOTAL_LIMIT) ∧
      (∀ now, make_rss (aggregate xs) now =
        rssDoc (rss_date_now now) (String.join ((aggregate xs).map (itemXml now))))) ∧
    (∀ xs : List Item, (∀ it ∈ xs, it.dt = none) →
      aggregate xs = (dedupLinks xs []).take TOTAL_LIMIT) ∧
    aggregate
      [⟨"[A] jan", "http://x.com/1", "d1", some (dateSec 2024 1 1 0 0 0)⟩,
       ⟨"[B] jun", "http://x.com/2", "d2", some (dateSec 2024 6 1 0 0 0)⟩,
       ⟨"[C] undated", "http://x.com/3", "d3", none⟩] =
      [⟨"[B] jun", "http://x.com/2", "d2", some (dateSec 2024 6 1 0 0 0)⟩,
       ⟨"[A] jan", "http://x.com/1", "d1", some (dateSec 2024 1 1 0 0 0)⟩,
       ⟨"[C] undated", "http://x.com/3", "d3", none⟩] ∧
    aggregate
      [⟨"[A] first", "http://x.com/L", "first description", some (dateSec 2024 1 1 0 0 0)⟩,
       ⟨"[B] second", "http://x.com/L", "second description", some (dateSec 2024 6 1 0 0 0)⟩] =
      [⟨"[A] first", "http://x.com/L", "first description", some (dateSec 2024 1 1 0 0 0)⟩] ∧
    aggregate
      [⟨"[A] u1", "http://x.com/u1", "d1", none⟩,
       ⟨"[B] u2", "http://x.com/u2", "d2", none⟩,
       ⟨"[C] u3", "http://x.com/u3", "d3", none⟩] =
      [⟨"[A] u1", "http://x.com/u1", "d1", none⟩,
       ⟨"[B] u2", "http://x.com/u2", "d2", none⟩,
       ⟨"[C] u3", "http://x.com/u3", "d3", none⟩] ∧
    aggregate
      [⟨"[X] tie1", "http://x.com/tx", "dx", some 5⟩,
       ⟨"[Y] newer", "http://x.com/ty", "dy", some 9⟩,
       ⟨"[Z] tie2", "http://x.com/tz", "dz", some 5⟩] =
      [⟨"[Y] newer", "http://x.com/ty", "dy", some 9⟩,
       ⟨"[X] tie1", "http://x.com/tx", "dx", some 5⟩,
       ⟨"[Z] tie2", "http://x.com/tz", "dz", some 5⟩] := by
  refine ⟨?_, ?_, by decide, by decide, by decide, by decide⟩
  case refine_2 =>
    intro xs hall
    unfold aggregate
    have hkeys : ∀ it ∈ dedupLinks xs [], key_dt it = 0 := by
      intro it hit
      have hmem : it ∈ xs := List.mem_of_find?_eq_some (mem_dedupLinks hit).2.2
      simp [key_dt, hall it hmem]
    rw [sortDesc_const_key hkeys]
  intro xs
  have hsub : List.Sublist (aggregate xs) (sortDesc (dedupLinks xs [])) := List.take_sublist _ _
  have hperm : List.Perm (sortDesc (dedupLinks xs [])) (dedupLinks xs []) := perm_sortDesc _
  have hkey : (aggregate xs).Pairwise (fun a b => key_dt b ≤ key_dt a) :=
    List.Pairwise.sublist hsub (pairwise_key_sortDesc _)
  refine ⟨hkey, ?_, ?_, ?_, ?_, fun _ => rfl⟩
  · refine hkey.imp ?_
    intro a b hle hnone
    have ha : key_dt a = 0 := by simp [key_dt, hnone]
    omega
  · refine List.Pairwise.sublist hsub ?_
    exact (List.Perm.pairwise_iff (fun h => h.symm) hperm).mpr (pairwise_ne_dedupLinks _ _)
  · intro it hit
    have h1 : it ∈ sortDesc (dedupLinks xs []) := List.Sublist.mem hit hsub
    have h2 : it ∈ dedupLinks xs [] := hperm.mem_iff.mp h1
    exact (mem_dedupLinks h2).2.2
  · rw [aggregate, List.length_take]
    exact inf_le_left

/-- C1, witness for the main theorem: the first-occurrence property applied
at a concrete singleton input. -/
theorem c1_aggregate_merge_witness :
    ([⟨"t", "http://x.com/a", "d", some 5⟩] : List Item).find?
        (fun j => j.link == (⟨"t", "http://x.com/a", "d", some 5⟩ : Item).link)
      = some ⟨"t", "http://x.com/a", "d", some 5⟩ :=
  (c1_aggregate_merge.1 [⟨"t", "http://x.com/a", "d", some 5⟩]).2.2.2.1
    ⟨"t", "http://x.com/a", "d", some 5⟩ (by decide)

/-! ## Claim C9: run-to-run stability of the serialized document -/

theorem itemXml_dt_independent (it : Item) (n1 n2 : Nat) (h : it.dt ≠ none) :
    itemXml n1 it = itemXml n2 it := by
  rcases it with ⟨t, l, d, dt⟩
  cases dt with
  | none => exact absurd rfl h
  | some v => rfl

/-- C9, counterexample.  The claim says every per-item field, including the
publication date fields, is identical between two runs on identical fetch
results.  An undated item's `pubDate`/`dc:date` are stamped with the current
time at serialization, so two runs one minute apart disagree inside the item
element itself, not only in the build-timestamp field. -/
theorem c9_counterexample :
    (itemsXml [⟨"[A] T", "http://x.com/a", "D", none⟩] (dateSec 2025 1 1 0 0 0) ==
      itemsXml [⟨"[A] T", "http://x.com/a", "D", none⟩] (dateSec 2025 1 1 0 1 0)) = false := by
  decide

/-- C9, amended.  Two runs on identical aggregation inputs produce documents
that are byte-identical except for the `lastBuildDate` text PROVIDED every
item carries a resolved publication instant; undated items additionally
differ in their `pubDate`/`dc:date` fields (the display-time fallback stamps
them with the serialization-time clock, see the counterexample). -/
theorem c9_idempotence_amended :
    ∀ (items : List Item) (n1 n2 : Nat), (∀ it ∈ items, it.dt ≠ none) →
      make_rss items n1 = rssDoc (rss_date_now n1) (itemsXml items n1) ∧
      make_rss items n2 = rssDoc (rss_date_now n2) (itemsXml items n2) ∧
      itemsXml items n1 = itemsXml items n2 := by
  intro items n1 n2 h
  refine ⟨rfl, rfl, ?_⟩
  unfold itemsXml
  exact congrArg String.join (List.map_congr_left
    (fun it hit => itemXml_dt_independent it n1 n2 (h it hit)))

/-- C9, witness for the amended theorem. -/
theorem c9_idempotence_amended_witness :
    itemsXml [⟨"t", "http://x.com/a", "d", some 3⟩] 5 =
      itemsXml [⟨"t", "http://x.com/a", "d", some 3⟩] 9 :=
  (c9_idempotence_amended [⟨"t", "http://x.com/a", "d", some 3⟩] 5 9 (by decide)).2.2

/-! ## Claim C10: item invariants of the two extractors -/

theorem strStartsWith_append (p t : String) : strStartsWith (p ++ t) p = true := by
  simp only [strStartsWith, String.data_append]
  exact listStartsWith_append _ _

theorem bracket_data (org s : String) :
    ("[" ++ org ++ "] " ++ s).data = '[' :: (org.data ++ ']' :: ' ' :: s.data) := by
  rw [String.data_append, String.data_append, String.data_append]
  rw [show ("[" : String).data = ['['] from rfl, show ("] " : String).data = [']', ' '] from rfl]
  simp [List.append_assoc]

theorem bracket_ne_empty (org s : String) : ("[" ++ org ++ "] " ++ s) ≠ "" := by
  intro h
  have hd : '[' :: (org.data ++ ']' :: ' ' :: s.data) = [] := by
    rw [← bracket_data org s, h]
  exact List.noConfusion hd

theorem takeChars_ne_empty {s : String} (h : s ≠ "") (suf : String) :
    takeChars 600 s ++ suf ≠ "" := by
  intro hc
  have hd := congrArg String.data hc
  simp only [String.data_append, takeChars] at hd
  rcases List.append_eq_nil.mp hd with ⟨h1, -⟩
  rcases List.take_eq_nil_iff.mp h1 with h6 | hs
  · exact absurd h6 (by decide)
  · exact h (String.ext hs)

theorem entryItem_invariants {base org home : String} {e : FeedEntry} {it : Item}
    (h : entryItem base org home e = some it) :
    strStartsWith it.title ("[" ++ org ++ "] ") = true ∧
    it.title ≠ "" ∧ it.description ≠ "" := by
  unfold entryItem at h
  split at h
  · exact Option.noConfusion h
  · simp only [Option.some.injEq] at h
    subst h
    refine ⟨?_, ?_, ?_⟩
    · dsimp only
      split_ifs <;> exact strStartsWith_append _ _
    · dsimp only
      split_ifs <;> exact bracket_ne_empty _ _
    · dsimp only
      split_ifs with hs h600
      · exact takeChars_ne_empty hs _
      · exact takeChars_ne_empty hs _
      · decide

theorem mem_entriesLoop {base org home : String} {it : Item} :
    ∀ {es : List FeedEntry} {acc : List Item}, it ∈ entriesLoop base org home es acc →
      it ∈ acc ∨ ∃ e, entryItem base org home e = some it := by
  intro es
  induction es with
  | nil =>
    intro acc h
    simp only [entriesLoop] at h
    exact Or.inl h
  | cons e rest ih =>
    intro acc h
    simp only [entriesLoop] at h
    split at h
    · exact ih h
    · rename_i it' heq
      split_ifs at h
      · rcases List.mem_append.mp h with ha | hb
        · exact Or.inl ha
        · right
          refine ⟨e, ?_⟩
          rw [heq, List.mem_singleton.mp hb]
      · rcases ih h with ha | hb
        · rcases List.mem_append.mp ha with h1 | h2
          · exact Or.inl h1
          · right
            refine ⟨e, ?_⟩
            rw [heq, List.mem_singleton.mp h2]
        · exact Or.inr hb

theorem rev_head_not_space {s : String}
    (h2 : s.data.reverse.dropWhile isPySpace = s.data.reverse) (hne : s ≠ "") :
    ∃ c r, s.data.reverse = c :: r ∧ isPySpace c = false := by
  rcases hrev : s.data.reverse with - | ⟨c, r⟩
  · exfalso
    apply hne
    apply String.ext
    have := congrArg List.reverse hrev
    simpa using this
  · refine ⟨c, r, rfl, ?_⟩
    rw [hrev, List.dropWhile_cons] at h2
    by_cases hc : isPySpace c = true
    · rw [if_pos hc] at h2
      have hlen := congrArg List.length h2
      have hle : (List.dropWhile isPySpace r).length ≤ r.length :=
        (List.dropWhile_sublist _).length_le
      simp at hlen
      omega
    · simpa using hc

theorem stripWs_bracket (org s : String)
    (h2 : s.data.reverse.dropWhile isPySpace = s.data.reverse) (hne : s ≠ "") :
    stripWsStr ("[" ++ org ++ "] " ++ s) = "[" ++ org ++ "] " ++ s := by
  obtain ⟨c, r, hrev, hc⟩ := rev_head_not_space h2 hne
  apply String.ext
  show ((("[" ++ org ++ "] " ++ s).data.dropWhile isPySpace).reverse.dropWhile
      isPySpace).reverse = ("[" ++ org ++ "] " ++ s).data
  rw [bracket_data, List.dropWhile_cons, if_neg (by decide : ¬(isPySpace '[' = true))]
  have hrw : ('[' :: (org.data ++ ']' :: ' ' :: s.data)).reverse
      = c :: (r ++ (' ' :: ']' :: org.data.reverse ++ ['['])) := by
    simp [List.reverse_cons, List.reverse_append, hrev, List.append_assoc]
  rw [hrw, List.dropWhile_cons, if_neg (by simp [hc])]
  rw [← hrw, List.reverse_reverse]

/-- C10.  Every item built by the Feed Extractor's entry loop and every item
returned by the HTML Article Extractor has a non-empty title beginning with
`"[" ++ sourceName ++ "] "` and a non-empty description; a feed entry with
neither title nor summary yields the placeholder title and description; an
article whose cleaned body is empty falls back to its heading text (which is
itself the placeholder when the page has no heading) as the description.
The heading-side hypotheses state that the collaborator-extracted heading
carries no leading/trailing whitespace, which `get_text(strip=True)`
guarantees. -/
theorem c10_item_invariants :
    (∀ (base org home : String) (es : List FeedEntry) (it : Item),
      it ∈ entriesLoop base org home es [] →
        strStartsWith it.title ("[" ++ org ++ "] ") = true ∧
        it.title ≠ "" ∧ it.description ≠ "") ∧
    (∀ (base org home : String) (e : FeedEntry) (it : Item),
      stripWsStr e.title = "" → e.summaryText = "" →
      entryItem base org home e = some it →
        it.title = "[" ++ org ++ "] " ++ "Новость" ∧ it.description = "Новость") ∧
    (∀ (finalUrl : String) (pg : ArticlePage) (pageDt : Option Nat) (org home : String)
        (it : Item),
      pg.h1text.data.dropWhile isPySpace = pg.h1text.data →
      pg.h1text.data.reverse.dropWhile isPySpace = pg.h1text.data.reverse →
      parse_article finalUrl pg pageDt org home = some it →
        strStartsWith it.title ("[" ++ org ++ "] ") = true ∧
        it.title ≠ "" ∧ it.description ≠ "" ∧
        (cleanBody (articleH1 pg) pg.containerText = "" →
          it.description = articleH1 pg)) := by
  refine ⟨?_, ?_, ?_⟩
  · intro base org home es it hmem
    rcases mem_entriesLoop hmem with hacc | ⟨e, he⟩
    · simp at hacc
    · exact entryItem_invariants he
  · intro base org home e it ht hs h
    unfold entryItem at h
    split at h
    · exact Option.noConfusion h
    · simp only [Option.some.injEq] at h
      subst h
      have hrt : entryRawTitle e = "" := by simp [entryRawTitle, ht, hs]
      constructor
      · dsimp only
        simp [hrt]
      · dsimp only
        simp [hs]
  · intro finalUrl pg pageDt org home it hstrip1 hstrip2 h
    unfold parse_article at h
    split at h
    case isTrue => exact Option.noConfusion h
    case isFalse _ =>
    simp only [Option.some.injEq] at h
    subst h
    have hne : articleH1 pg ≠ "" := by
      unfold articleH1
      split_ifs with hp
      · decide
      · exact hp
    have hstripped : (articleH1 pg).data.reverse.dropWhile isPySpace
        = (articleH1 pg).data.reverse := by
      unfold articleH1
      split_ifs with hp
      · decide
      · exact hstrip2
    have htitle : articleTitle0 org (articleH1 pg) = "[" ++ org ++ "] " ++ articleH1 pg :=
      stripWs_bracket org _ hstripped hne
    have htne : ("[" ++ org ++ "] " ++ articleH1 pg) ≠ "" := bracket_ne_empty org _
    have hsel : (if articleTitle0 org (articleH1 pg) = "" then "[" ++ org ++ "] Новость"
        else articleTitle0 org (articleH1 pg)) = "[" ++ org ++ "] " ++ articleH1 pg := by
      rw [htitle, if_neg htne]
    refine ⟨?_, ?_, ?_, ?_⟩
    · dsimp only
      rw [hsel]
      exact strStartsWith_append _ _
    · dsimp only
      rw [hsel]
      exact htne
    · dsimp only
      unfold articleDesc
      split_ifs with hd
      · exact hne
      · exact hd
    · intro hcb
      dsimp only
      unfold articleDesc articleDesc0
      rw [hcb]
      have hz : takeChars 600 ("" : String)
          ++ (if 600 < lenChars "" then "…" else "") = "" := by decide
      rw [hz, if_pos rfl, if_neg hne]

/-- C10, witness: the article invariants applied at a concrete page. -/
theorem c10_item_invariants_witness :
    parse_article "http://x.com/a" ⟨"Заголовок", "Заголовок — текст тела"⟩ none
        "Org" "http://x.com"
      = some ⟨"[Org] Заголовок", "http://x.com/a", "текст тела", none⟩ ∧
    strStartsWith "[Org] Заголовок" ("[" ++ "Org" ++ "] ") = true :=
  ⟨by decide,
    (c10_item_invariants.2.2 "http://x.com/a" ⟨"Заголовок", "Заголовок — текст тела"⟩ none
      "Org" "http://x.com" ⟨"[Org] Заголовок", "http://x.com/a", "текст тела", none⟩
      (by decide) (by decide) (by decide)).1⟩

end GenRss
